import Mathlib

/-
Verification of the AWS backup-upload core of the neo4j helm-charts repository
(neo4j-admin/backup/aws/operations.go), as a shallow embedding in Lean.

Go strings are modelled as `List Char`; the only string operations the code
performs on bucket names are `strings.Contains(s, "/")`, `strings.Index(s, "/")`
and slicing at that index, embedded below as `stringsContains`, `stringsIndex`,
`List.take` and `List.drop`.  External effects (the S3 client, the local
filesystem, `os.Setenv`) are modelled as oracle functions returning `Except`
values, and resource events (file open/close) as explicit traces.
-/

namespace HelmNeo4j

/-- Embedding of Go `strings.Contains(s, string(c))` for a one-character needle. -/
def stringsContains (s : List Char) (c : Char) : Bool :=
  match s with
  | [] => false
  | a :: rest => a == c || stringsContains rest c

/-- Embedding of Go `strings.Index(s, string(c))` for a one-character needle.
The Go function returns -1 when the needle is absent; the source only ever
calls it under a `strings.Contains` guard, so the absent case is irrelevant
and this embedding returns the length of the list there. -/
def stringsIndex (s : List Char) (c : Char) : Nat :=
  match s with
  | [] => 0
  | a :: rest => if a == c then 0 else stringsIndex rest c + 1

/-- Embedding of `generateKeyName` (operations.go, lines 160-169):
if the bucket name contains a '/', the key is everything after the first '/'
followed by "/" and the file name; otherwise the key is the file name. -/
def generateKeyName (bucketName fileName : List Char) : List Char :=
  if stringsContains bucketName '/' then
    (bucketName.drop (stringsIndex bucketName '/' + 1)) ++ '/' :: fileName
  else
    fileName

/-- Embedding of the `parentBucketName` computation in `UploadFile`
(operations.go, lines 61-67): everything before the first '/' when the bucket
name contains one, the whole bucket name otherwise. -/
def parentBucketName (bucketName : List Char) : List Char :=
  if stringsContains bucketName '/' then
    bucketName.take (stringsIndex bucketName '/')
  else
    bucketName

/-- The two upload strategies of the spec's data model. -/
inductive UploadStrategy
  | direct
  | multipart
deriving DecidableEq

/-- Modelled from the spec: the body of `common.IsFileBigger` is not under
src/ (only its call site in `UploadFile` is); the spec fixes its behaviour as
a 1 GiB (1024^3 bytes) threshold with sizes greater than or equal to the
threshold classified as large. -/
def IsFileBigger (sizeBytes : Nat) : Bool :=
  1073741824 ≤ sizeBytes

/-- Upload-strategy selection: `UploadFile` (operations.go, lines 74-84)
takes the multipart path exactly when `common.IsFileBigger` answers true,
and the direct path otherwise. -/
def classify (sizeBytes : Nat) : UploadStrategy :=
  if IsFileBigger sizeBytes then .multipart else .direct

/-- Errors reported by the connectivity check: a listing failure wrapping the
full bucket address and the underlying cause (operations.go, line 45), or the
bucket-does-not-exist report for an empty listing under a prefix (line 49). -/
inductive AccessError
  | unreachable (bucketName cause : List Char)
  | notExist (bucketName : List Char)
deriving DecidableEq

/-- Embedding of `CheckBucketAccess` (operations.go, lines 24-55).  The S3
`ListObjectsV2` call is an oracle `list bucket maybePrefix` returning either
an error message or the first page of object summaries (each summary modelled
as `Unit`, since only the count is inspected).  The input is the plain bucket
when the address has no '/', and otherwise the part before the first '/' as
bucket with the remainder as prefix; after a successful call, an address
containing '/' additionally requires a non-empty listing. -/
def CheckBucketAccess
    (list : List Char → Option (List Char) → Except (List Char) (List Unit))
    (bucketName : List Char) : Except AccessError Unit :=
  let s3Input : List Char × Option (List Char) :=
    if stringsContains bucketName '/' then
      (bucketName.take (stringsIndex bucketName '/'),
       some (bucketName.drop (stringsIndex bucketName '/' + 1)))
    else
      (bucketName, none)
  match list s3Input.1 s3Input.2 with
  | .error e => .error (.unreachable bucketName e)
  | .ok objects =>
    if stringsContains bucketName '/' then
      if objects.length = 0 then .error (.notExist bucketName) else .ok ()
    else .ok ()

/-- Errors produced by the upload path.  `io` is an abstract underlying cause
(filesystem or transport failure); the other constructors mirror the
`fmt.Errorf` wrappings in `UploadFile` and `UploadLargeObject`. -/
inductive UErr
  | io (code : Nat)
  | openFailed (filePath : List Char) (cause : UErr)
  | putFailed (filePath bucketName fileName : List Char) (cause : UErr)
  | openLargeFailed (filePath : List Char) (cause : UErr)
  | uploadLargeFailed (filePath bucketName fileName : List Char) (cause : UErr)
deriving DecidableEq

/-- Local file-handle events, used to check the close-on-all-paths property. -/
inductive FileEvent
  | opened
  | closed
deriving DecidableEq

/-- External collaborators of the upload path: `common.IsFileBigger` (a stat
of the file, which can fail), `os.Open`, the S3 `PutObject` call (bucket, key,
file handle) and the S3 multipart upload (bucket, key, part size, file
handle).  File handles are numbered. -/
structure S3Oracle where
  isFileBigger : List Char → Except UErr Bool
  openFile : List Char → Except UErr Nat
  putObject : List Char → List Char → Nat → Except UErr Unit
  multipartUpload : List Char → List Char → Nat → Nat → Except UErr Unit

/-- Embedding of `UploadLargeObject` (operations.go, lines 107-137): build the
file path, open the file, multipart-upload with a part size of
`partGiBs * 1024 * 1024 * 1024` bytes (`partGiBs = 1`) to the parent bucket
under the generated key.  The `defer file.Close()` makes the handle close on
both the error and the success return; the event trace records open/close. -/
def UploadLargeObject (o : S3Oracle)
    (fileName location bucketName parentBucket : List Char) :
    Except UErr Unit × List FileEvent :=
  let filePath := location ++ '/' :: fileName
  let partGiBs : Nat := 1
  match o.openFile filePath with
  | .error e => (.error (.openLargeFailed filePath e), [])
  | .ok file =>
    match o.multipartUpload parentBucket (generateKeyName bucketName fileName)
        (partGiBs * 1024 * 1024 * 1024) file with
    | .error e =>
        (.error (.uploadLargeFailed filePath bucketName fileName e),
         [.opened, .closed])
    | .ok _ => (.ok (), [.opened, .closed])

/-- Embedding of one iteration of the loop body of `UploadFile`
(operations.go, lines 72-103): stat the file; on the multipart path delegate
to `UploadLargeObject`; on the direct path open the file, `PutObject` it to
the parent bucket under the generated key, and close the handle.  The source
returns on a `PutObject` error *before* reaching `file.Close()` (lines
94-101), so on that path the trace records an open without a close. -/
def processFile (o : S3Oracle)
    (location bucketName parentBucket fileName : List Char) :
    Except UErr Unit × List FileEvent :=
  let filePath := location ++ '/' :: fileName
  match o.isFileBigger filePath with
  | .error e => (.error e, [])
  | .ok yes =>
    if yes then
      UploadLargeObject o fileName location bucketName parentBucket
    else
      match o.openFile filePath with
      | .error e => (.error (.openFailed filePath e), [])
      | .ok file =>
        match o.putObject parentBucket (generateKeyName bucketName fileName) file with
        | .error e => (.error (.putFailed filePath bucketName fileName e), [.opened])
        | .ok _ => (.ok (), [.opened, .closed])

/-- Loop of `UploadFile` over the file names, with the list of files actually
attempted recorded alongside the result: the loop returns the first per-file
error immediately and otherwise continues with the next file. -/
def uploadLoop (o : S3Oracle) (location bucketName parentBucket : List Char) :
    List (List Char) → Except UErr Unit × List (List Char)
  | [] => (.ok (), [])
  | f :: rest =>
    match (processFile o location bucketName parentBucket f).1 with
    | .error e => (.error e, [f])
    | .ok _ =>
      let r := uploadLoop o location bucketName parentBucket rest
      (r.1, f :: r.2)

/-- Embedding of `UploadFile` (operations.go, lines 58-105): compute the
parent bucket once from the bucket address, read the base directory from the
environment (here a parameter), then process the files in order. -/
def UploadFile (o : S3Oracle) (fileNames : List (List Char))
    (bucketName location : List Char) : Except UErr Unit × List (List Char) :=
  uploadLoop o location bucketName (parentBucketName bucketName) fileNames

/-- Credential object retrieved from the AWS config (the fields the source
reads from the `Retrieve` result). -/
structure AwsCredentials where
  accessKeyID : List Char
  secretAccessKey : List Char

/-- Embedding of the fields of `awsClient.cfg` that
`GenerateEnvVariablesFromCredentials` reads: the credential-retrieval outcome
and the configured region. -/
structure AwsConfig where
  retrieve : Except UErr AwsCredentials
  region : List Char

/-- Name of the access-key environment variable set by the source. -/
def AWS_ACCESS_KEY_ID : List Char := "AWS_ACCESS_KEY_ID".toList

/-- Name of the secret-key environment variable set by the source. -/
def AWS_SECRET_ACCESS_KEY : List Char := "AWS_SECRET_ACCESS_KEY".toList

/-- Name of the region environment variable set by the source. -/
def AWS_REGION : List Char := "AWS_REGION".toList

/-- Embedding of `GenerateEnvVariablesFromCredentials` (operations.go, lines
140-158): retrieve the credentials, then `os.Setenv` the access key, the
secret key and the region in that order, returning at the first failure.
`setenv` is the environment-store oracle; the returned list records the
successful writes in order (the environment mutations that took place and are
never undone by the function). -/
def GenerateEnvVariablesFromCredentials
    (setenv : List Char → List Char → Except UErr Unit) (cfg : AwsConfig) :
    Except UErr Unit × List (List Char × List Char) :=
  match cfg.retrieve with
  | .error e => (.error e, [])
  | .ok creds =>
    match setenv AWS_ACCESS_KEY_ID creds.accessKeyID with
    | .error e => (.error e, [])
    | .ok _ =>
      match setenv AWS_SECRET_ACCESS_KEY creds.secretAccessKey with
      | .error e => (.error e, [(AWS_ACCESS_KEY_ID, creds.accessKeyID)])
      | .ok _ =>
        match setenv AWS_REGION cfg.region with
        | .error e =>
            (.error e,
             [(AWS_ACCESS_KEY_ID, creds.accessKeyID),
              (AWS_SECRET_ACCESS_KEY, creds.secretAccessKey)])
        | .ok _ =>
            (.ok (),
             [(AWS_ACCESS_KEY_ID, creds.accessKeyID),
              (AWS_SECRET_ACCESS_KEY, creds.secretAccessKey),
              (AWS_REGION, cfg.region)])

/- Concrete oracles used by the witnesses and the failing-input evaluation. -/

/-- Oracle with all files small: the open of the 15-character path (the second
file below) fails, every other call succeeds. -/
def failSecondOracle : S3Oracle where
  isFileBigger := fun _ => .ok false
  openFile := fun p => if p.length = 15 then .error (.io 3) else .ok 0
  putObject := fun _ _ _ => .ok ()
  multipartUpload := fun _ _ _ _ => .ok ()

/-- Oracle where every call succeeds. -/
def allOkOracle : S3Oracle where
  isFileBigger := fun _ => .ok false
  openFile := fun _ => .ok 0
  putObject := fun _ _ _ => .ok ()
  multipartUpload := fun _ _ _ _ => .ok ()

/-- Oracle for the direct path where the `PutObject` call fails. -/
def putFailsOracle : S3Oracle where
  isFileBigger := fun _ => .ok false
  openFile := fun _ => .ok 0
  putObject := fun _ _ _ => .error (.io 7)
  multipartUpload := fun _ _ _ _ => .ok ()

/-- Oracle where the file is large and every call succeeds. -/
def bigOracle : S3Oracle where
  isFileBigger := fun _ => .ok true
  openFile := fun _ => .ok 7
  putObject := fun _ _ _ => .ok ()
  multipartUpload := fun _ _ _ _ => .ok ()

/-- Listing oracle that always succeeds with one object summary. -/
def listOneObject : List Char → Option (List Char) → Except (List Char) (List Unit) :=
  fun _ _ => .ok [()]

/-- Environment-store oracle where every write succeeds. -/
def okSetenv : List Char → List Char → Except UErr Unit :=
  fun _ _ => .ok ()

/-- Environment-store oracle that rejects the write of the 21-character
variable name (the secret key) and accepts every other write. -/
def failSecretSetenv : List Char → List Char → Except UErr Unit :=
  fun key _ => if key.length = 21 then .error (.io 9) else .ok ()

/-- Concrete AWS config used by the credential witnesses. -/
def demoConfig : AwsConfig where
  retrieve := .ok { accessKeyID := "AK".toList, secretAccessKey := "SK".toList }
  region := "eu-west-1".toList

/- Bridge lemmas relating the embedded string scanning to the structural
   description "before / after the first '/'". -/

theorem stringsContains_eq_false (b : List Char) (h : '/' ∉ b) :
    stringsContains b '/' = false := by
  induction b with
  | nil => rfl
  | cons a rest ih =>
    simp only [stringsContains, Bool.or_eq_false_iff]
    constructor
    · simp only [beq_eq_false_iff_ne, ne_eq]
      intro hc
      exact h (hc ▸ List.mem_cons_self a rest)
    · exact ih (fun hm => h (List.mem_cons_of_mem a hm))

theorem stringsContains_append_slash (pre post : List Char) :
    stringsContains (pre ++ '/' :: post) '/' = true := by
  induction pre with
  | nil => simp [stringsContains]
  | cons a rest ih => simp [stringsContains, ih]

theorem stringsIndex_append_slash (pre post : List Char) (h : '/' ∉ pre) :
    stringsIndex (pre ++ '/' :: post) '/' = pre.length := by
  induction pre with
  | nil => simp [stringsIndex]
  | cons a rest ih =>
    have ha : (a == '/') = false := by
      simp only [beq_eq_false_iff_ne, ne_eq]
      intro hc
      exact h (hc ▸ List.mem_cons_self a rest)
    have ih' := ih (fun hm => h (List.mem_cons_of_mem a hm))
    simp [stringsIndex, ha, ih']

theorem take_before_slash (pre post : List Char) :
    (pre ++ '/' :: post).take pre.length = pre := by
  exact List.take_left pre ('/' :: post)

theorem drop_after_slash (pre post : List Char) :
    (pre ++ '/' :: post).drop (pre.length + 1) = post := by
  induction pre with
  | nil => simp
  | cons a rest ih => simp [ih]

/-- C1: key resolution is deterministic (it is a function of its arguments)
and satisfies: with no '/' in the bucket address the physical bucket is the
address itself and the key is the file name; with a '/' the physical bucket
is the part before the first '/' and the key is the part after the first '/'
followed by '/' and the file name. -/
theorem keyResolution_spec (b pre post f : List Char) :
    ('/' ∉ b → parentBucketName b = b ∧ generateKeyName b f = f)
    ∧ (b = pre ++ '/' :: post → '/' ∉ pre →
        parentBucketName b = pre ∧ generateKeyName b f = post ++ '/' :: f) := by
  constructor
  · intro h
    have hc := stringsContains_eq_false b h
    constructor
    · simp [parentBucketName, hc]
    · simp [generateKeyName, hc]
  · intro hb hpre
    subst hb
    have hc := stringsContains_append_slash pre post
    have hi := stringsIndex_append_slash pre post hpre
    constructor
    · simp [parentBucketName, hc, hi, take_before_slash]
    · simp [generateKeyName, hc, hi, drop_after_slash]

/-- C1 witness: resolving bucket address "A/B/C" with file "x.dump" yields
physical bucket "A" and object key "B/C/x.dump". -/
theorem keyResolution_spec_witness :
    parentBucketName ("A/B/C".toList) = "A".toList
    ∧ generateKeyName ("A/B/C".toList) ("x.dump".toList)
        = "B/C".toList ++ '/' :: "x.dump".toList :=
  (keyResolution_spec ("A/B/C".toList) ("A".toList) ("B/C".toList)
    ("x.dump".toList)).2 (by decide) (by decide)

/-- C9: when the only '/' in the bucket address is a trailing one, the part
after the first '/' is empty, so the object key is "/" followed by the file
name, not the file name alone. -/
theorem trailingSlash_key (name f : List Char) (h : '/' ∉ name) :
    generateKeyName (name ++ ['/']) f = '/' :: f := by
  have := (keyResolution_spec (name ++ ['/']) name [] f).2 (by simp) h
  simpa using this.2

/-- C9 witness: resolving bucket address "demo/" with file "a.dump" yields
object key "/a.dump". -/
theorem trailingSlash_key_witness :
    generateKeyName ("demo/".toList) ("a.dump".toList) = '/' :: "a.dump".toList := by
  have := trailingSlash_key ("demo".toList) ("a.dump".toList) (by decide)
  simpa using this

/-- C2: the upload-strategy classification returns Multipart if and only if
the size is at least 1073741824 bytes; exactly 1073741824 is Multipart and
1073741823 is Direct. -/
theorem classify_spec (sizeBytes : Nat) :
    (classify sizeBytes = .multipart ↔ 1073741824 ≤ sizeBytes)
    ∧ classify 1073741824 = .multipart
    ∧ classify 1073741823 = .direct := by
  refine ⟨?_, by decide, by decide⟩
  unfold classify IsFileBigger
  by_cases h : 1073741824 ≤ sizeBytes
  · simp [h]
  · simp [h]

/-- C8: key resolution and size classification are pure functions of their
arguments: re-invoking them with identical inputs yields identical outputs
(in this embedding they read no state at all, mirroring the Go functions,
which depend only on their parameters). -/
theorem resolve_classify_pure (b b' f f' : List Char) (s s' : Nat)
    (hb : b = b') (hf : f = f') (hs : s = s') :
    generateKeyName b f = generateKeyName b' f'
    ∧ parentBucketName b = parentBucketName b'
    ∧ classify s = classify s' := by
  subst hb; subst hf; subst hs
  exact ⟨rfl, rfl, rfl⟩

/-- C8 witness: concrete re-invocations at equal inputs agree. -/
theorem resolve_classify_pure_witness :
    generateKeyName ("demo/test".toList) ("a.dump".toList)
      = generateKeyName ("demo/test".toList) ("a.dump".toList)
    ∧ parentBucketName ("demo/test".toList) = parentBucketName ("demo/test".toList)
    ∧ classify 5 = classify 5 :=
  resolve_classify_pure ("demo/test".toList) ("demo/test".toList)
    ("a.dump".toList) ("a.dump".toList) 5 5 rfl rfl rfl

/-- C4: with no '/' in the address the connectivity check succeeds exactly
when the listing call on the address succeeds (zero objects included); with a
'/' it succeeds exactly when the listing on (part before first '/', prefix =
remainder) succeeds with at least one object; a successful prefixed listing
with zero objects is an access error, and a failing listing call is an access
error wrapping the full bucket address and the underlying cause. -/
theorem checkBucketAccess_spec
    (list : List Char → Option (List Char) → Except (List Char) (List Unit))
    (b pre post : List Char) :
    ('/' ∉ b →
      ((CheckBucketAccess list b = .ok ()) ↔ ∃ objs, list b none = .ok objs)
      ∧ (∀ e, list b none = .error e →
          CheckBucketAccess list b = .error (.unreachable b e)))
    ∧ (b = pre ++ '/' :: post → '/' ∉ pre →
      ((CheckBucketAccess list b = .ok ()) ↔
        ∃ objs, list pre (some post) = .ok objs ∧ objs ≠ [])
      ∧ (∀ e, list pre (some post) = .error e →
          CheckBucketAccess list b = .error (.unreachable b e))
      ∧ (list pre (some post) = .ok [] →
          CheckBucketAccess list b = .error (.notExist b))) := by
  constructor
  · intro h
    have hc := stringsContains_eq_false b h
    constructor
    · cases hlist : list b none with
      | error e => simp [CheckBucketAccess, hc, hlist]
      | ok objs =>
        simp only [CheckBucketAccess, hc]
        simp [hlist]
    · intro e hlist
      simp [CheckBucketAccess, hc, hlist]
  · intro hb hpre
    subst hb
    have hc := stringsContains_append_slash pre post
    have hi := stringsIndex_append_slash pre post hpre
    refine ⟨?_, ?_, ?_⟩
    · cases hlist : list pre (some post) with
      | error e =>
        simp [CheckBucketAccess, hc, hi, take_before_slash, drop_after_slash, hlist]
      | ok objs =>
        cases objs with
        | nil =>
          simp [CheckBucketAccess, hc, hi, take_before_slash, drop_after_slash, hlist]
        | cons x xs =>
          simp [CheckBucketAccess, hc, hi, take_before_slash, drop_after_slash, hlist]
    · intro e hlist
      simp [CheckBucketAccess, hc, hi, take_before_slash, drop_after_slash, hlist]
    · intro hlist
      simp [CheckBucketAccess, hc, hi, take_before_slash, drop_after_slash, hlist]

/-- C4 witness: with the always-one-object listing oracle, the check on the
plain address "demo" succeeds exactly when the listing call succeeds. -/
theorem checkBucketAccess_spec_witness :
    (CheckBucketAccess listOneObject ("demo".toList) = .ok ()) ↔
      ∃ objs, listOneObject ("demo".toList) none = .ok objs :=
  ((checkBucketAccess_spec listOneObject ("demo".toList) [] []).1 (by decide)).1

/-- C3: the batch upload is fail-fast: when every file before `f` succeeds
and `f` fails with error `e`, `UploadFile` returns `e` and attempts exactly
the files up to and including `f` (nothing after `f` is attempted); when
every file succeeds, `UploadFile` succeeds having attempted every file. -/
theorem uploadFile_fail_fast (o : S3Oracle) (location bucketName : List Char) :
    (∀ pre post f e,
      (∀ g ∈ pre,
        (processFile o location bucketName (parentBucketName bucketName) g).1 = .ok ())
      → (processFile o location bucketName (parentBucketName bucketName) f).1 = .error e
      → UploadFile o (pre ++ f :: post) bucketName location = (.error e, pre ++ [f]))
    ∧ (∀ fileNames,
      (∀ g ∈ fileNames,
        (processFile o location bucketName (parentBucketName bucketName) g).1 = .ok ())
      → UploadFile o fileNames bucketName location = (.ok (), fileNames)) := by
  constructor
  · intro pre post f e
    induction pre with
    | nil =>
      intro _ hf
      simp only [List.nil_append, UploadFile, uploadLoop, hf]
    | cons a rest ih =>
      intro hpre hf
      have ha := hpre a (List.mem_cons_self a rest)
      have hrest := fun g hg => hpre g (List.mem_cons_of_mem a hg)
      have ihr := ih hrest hf
      simp only [List.cons_append, UploadFile, uploadLoop, ha] at ihr ⊢
      simp [ihr]
  · intro fileNames
    induction fileNames with
    | nil =>
      intro _
      simp [UploadFile, uploadLoop]
    | cons a rest ih =>
      intro hall
      have ha := hall a (List.mem_cons_self a rest)
      have hrest := fun g hg => hall g (List.mem_cons_of_mem a hg)
      have ihr := ih hrest
      simp only [UploadFile, uploadLoop, ha] at ihr ⊢
      simp [ihr]

/-- C3 witness: with the oracle that fails to open the second file, uploading
["a.dump", "bb.dump", "c.dump"] returns the open error for "bb.dump" having
attempted only the first two files. -/
theorem uploadFile_fail_fast_witness :
    UploadFile failSecondOracle
      ["a.dump".toList, "bb.dump".toList, "c.dump".toList]
      ("demo".toList) ("backups".toList)
      = (.error (.openFailed ("backups/bb.dump".toList) (.io 3)),
         ["a.dump".toList, "bb.dump".toList]) :=
  (uploadFile_fail_fast failSecondOracle ("backups".toList) ("demo".toList)).1
    ["a.dump".toList] ["c.dump".toList] ("bb.dump".toList)
    (.openFailed ("backups/bb.dump".toList) (.io 3))
    (by intro g hg
        simp only [List.mem_singleton] at hg
        subst hg
        rfl)
    (by rfl)

/-- C6: on the multipart path (the file is classified large and the open
succeeds), the outcome of `processFile` is exactly the outcome of the
multipart capability invoked on the parent bucket, the key produced by key
resolution, and a part size of exactly 1073741824 bytes (with the raised
error wrapped as in the source).  Quantification over every oracle pins the
arguments of the call. -/
theorem uploadLargeObject_partSize (o : S3Oracle)
    (location bucketName f : List Char) (fh : Nat)
    (hbig : o.isFileBigger (location ++ '/' :: f) = .ok true)
    (hopen : o.openFile (location ++ '/' :: f) = .ok fh) :
    (processFile o location bucketName (parentBucketName bucketName) f).1
      = (match o.multipartUpload (parentBucketName bucketName)
            (generateKeyName bucketName f) 1073741824 fh with
         | .error e =>
            .error (.uploadLargeFailed (location ++ '/' :: f) bucketName f e)
         | .ok _ => .ok ()) := by
  have hsize : (1 : Nat) * 1024 * 1024 * 1024 = 1073741824 := by norm_num
  simp only [processFile, UploadLargeObject, hbig, hopen, hsize, if_true]
  cases hmp : o.multipartUpload (parentBucketName bucketName)
      (generateKeyName bucketName f) 1073741824 fh with
  | error e => simp
  | ok u => simp

/-- C6 witness: with the all-success large-file oracle, uploading "big.dump"
to bucket "demo" goes through the multipart call at part size 1073741824. -/
theorem uploadLargeObject_partSize_witness :
    (processFile bigOracle ("backups".toList) ("demo".toList)
        (parentBucketName ("demo".toList)) ("big.dump".toList)).1
      = (match bigOracle.multipartUpload (parentBucketName ("demo".toList))
            (generateKeyName ("demo".toList) ("big.dump".toList)) 1073741824 7 with
         | .error e =>
            .error (.uploadLargeFailed ("backups".toList ++ '/' :: "big.dump".toList)
              ("demo".toList) ("big.dump".toList) e)
         | .ok _ => .ok ()) :=
  uploadLargeObject_partSize bigOracle ("backups".toList) ("demo".toList)
    ("big.dump".toList) 7 rfl rfl

/-- C5 at the failing input: on the direct path, when the open succeeds and
the `PutObject` call fails, `UploadFile`'s loop body returns the wrapped
error with the handle opened but never closed — the source returns before
reaching `file.Close()` — contradicting close-on-all-exit-paths. -/
theorem uploadFile_handle_leak :
    (processFile putFailsOracle ("backups".toList) ("demo".toList)
        (parentBucketName ("demo".toList)) ("a.dump".toList)).1
      = .error (.putFailed ("backups/a.dump".toList) ("demo".toList)
          ("a.dump".toList) (.io 7))
    ∧ (processFile putFailsOracle ("backups".toList) ("demo".toList)
        (parentBucketName ("demo".toList)) ("a.dump".toList)).2
      = [FileEvent.opened]
    ∧ FileEvent.closed ∉
        (processFile putFailsOracle ("backups".toList) ("demo".toList)
          (parentBucketName ("demo".toList)) ("a.dump".toList)).2 := by
  refine ⟨rfl, rfl, ?_⟩
  intro hmem
  have h2 : (processFile putFailsOracle ("backups".toList) ("demo".toList)
      (parentBucketName ("demo".toList)) ("a.dump".toList)).2
      = [FileEvent.opened] := rfl
  rw [h2] at hmem
  simp at hmem

/-- C7: the credential-export bridge returns success exactly when credential
retrieval and all three environment writes (access key, secret key, region)
succeed, and in the all-success case the writes performed are exactly those
three, in that order, taken from the credential object and config. -/
theorem generateEnvVariables_spec
    (setenv : List Char → List Char → Except UErr Unit) (cfg : AwsConfig) :
    ((GenerateEnvVariablesFromCredentials setenv cfg).1 = .ok () ↔
      ∃ creds, cfg.retrieve = .ok creds
        ∧ setenv AWS_ACCESS_KEY_ID creds.accessKeyID = .ok ()
        ∧ setenv AWS_SECRET_ACCESS_KEY creds.secretAccessKey = .ok ()
        ∧ setenv AWS_REGION cfg.region = .ok ())
    ∧ (∀ creds, cfg.retrieve = .ok creds →
        setenv AWS_ACCESS_KEY_ID creds.accessKeyID = .ok () →
        setenv AWS_SECRET_ACCESS_KEY creds.secretAccessKey = .ok () →
        setenv AWS_REGION cfg.region = .ok () →
        GenerateEnvVariablesFromCredentials setenv cfg =
          (.ok (), [(AWS_ACCESS_KEY_ID, creds.accessKeyID),
                    (AWS_SECRET_ACCESS_KEY, creds.secretAccessKey),
                    (AWS_REGION, cfg.region)])) := by
  constructor
  · constructor
    · intro h
      cases hret : cfg.retrieve with
      | error e => simp [GenerateEnvVariablesFromCredentials, hret] at h
      | ok creds =>
        cases hak : setenv AWS_ACCESS_KEY_ID creds.accessKeyID with
        | error e => simp [GenerateEnvVariablesFromCredentials, hret, hak] at h
        | ok u =>
          cases u
          cases hsk : setenv AWS_SECRET_ACCESS_KEY creds.secretAccessKey with
          | error e => simp [GenerateEnvVariablesFromCredentials, hret, hak, hsk] at h
          | ok u =>
            cases u
            cases hrg : setenv AWS_REGION cfg.region with
            | error e =>
              simp [GenerateEnvVariablesFromCredentials, hret, hak, hsk, hrg] at h
            | ok u =>
              cases u
              exact ⟨creds, rfl, hak, hsk, rfl⟩
    · rintro ⟨creds, hret, hak, hsk, hrg⟩
      simp [GenerateEnvVariablesFromCredentials, hret, hak, hsk, hrg]
  · intro creds hret hak hsk hrg
    simp only [GenerateEnvVariablesFromCredentials, hret, hak, hsk, hrg]

/-- C7 witness: with the all-success environment store and the demo config,
the export succeeds having written exactly the three variables in order. -/
theorem generateEnvVariables_spec_witness :
    GenerateEnvVariablesFromCredentials okSetenv demoConfig =
      (.ok (), [(AWS_ACCESS_KEY_ID, "AK".toList),
                (AWS_SECRET_ACCESS_KEY, "SK".toList),
                (AWS_REGION, "eu-west-1".toList)]) :=
  (generateEnvVariables_spec okSetenv demoConfig).2
    { accessKeyID := "AK".toList, secretAccessKey := "SK".toList }
    rfl rfl rfl rfl

/-- C10: the export writes in the fixed order access key, secret key, region
and stops at the first failing write without undoing earlier ones: when
retrieval succeeds, the access-key write succeeds and the secret-key write
fails with `e`, the function returns `e` with the access-key write performed
(and still in place) and the region never written. -/
theorem generateEnvVariables_nonatomic
    (setenv : List Char → List Char → Except UErr Unit) (cfg : AwsConfig)
    (creds : AwsCredentials) (e : UErr)
    (hret : cfg.retrieve = .ok creds)
    (hak : setenv AWS_ACCESS_KEY_ID creds.accessKeyID = .ok ())
    (hsk : setenv AWS_SECRET_ACCESS_KEY creds.secretAccessKey = .error e) :
    GenerateEnvVariablesFromCredentials setenv cfg =
      (.error e, [(AWS_ACCESS_KEY_ID, creds.accessKeyID)]) := by
  simp only [GenerateEnvVariablesFromCredentials, hret, hak, hsk]

/-- C10 witness: with the store that rejects the secret-key write, the export
returns that error and the access-key write remains the only one performed. -/
theorem generateEnvVariables_nonatomic_witness :
    GenerateEnvVariablesFromCredentials failSecretSetenv demoConfig =
      (.error (.io 9), [(AWS_ACCESS_KEY_ID, "AK".toList)]) :=
  generateEnvVariables_nonatomic failSecretSetenv demoConfig
    { accessKeyID := "AK".toList, secretAccessKey := "SK".toList } (.io 9)
    rfl rfl rfl

end HelmNeo4j
